import Mathlib

/-!
Shallow embedding of the Shopify GA4 custom web pixel (src/index.js).

JavaScript values are modelled as follows: optional / possibly-undefined
fields become `Option`; JS string truthiness (`undefined`, `null` and `""`
are falsy) is made explicit; monetary amount strings that the code feeds to
`parseFloat` are modelled by their parsed rational value (`ℚ`), with an
absent amount as `none`; a JS exception is modelled by `Option`
(`none` = the call threw) or by the `crashed` handler outcome.
-/

namespace WebPixel

/-! ### Configuration constants (the CONFIG object) -/

def CONFIG_CURRENCY : String := "EUR"

def FALLBACK_BRAND : String := "Brand Name"

/-! ### JS helpers

`jsTruthyStr` is JS truthiness restricted to an optional string.
`jsOrStr v d` is the JS expression `v || d` for an optional string `v`.
`jsEndsWith` and `jsDropRight` model `String.prototype.endsWith` and
`slice(0, -n)` on the character sequence of a string. -/

def jsTruthyStr : Option String → Bool
  | none => false
  | some s => s ≠ ""

def jsOrStr (v : Option String) (d : String) : String :=
  match v with
  | none => d
  | some s => if s = "" then d else s

def jsEndsWith (s suf : String) : Bool :=
  List.isSuffixOf suf.data s.data

def jsDropRight (s : String) (n : Nat) : String :=
  String.mk (s.data.take (s.data.length - n))

/-- `String.prototype.trim`: remove leading and trailing whitespace. -/
def jsTrim (s : String) : String :=
  String.mk (((s.data.dropWhile Char.isWhitespace).reverse.dropWhile
    Char.isWhitespace).reverse)

/-! ### Source data model (Shopify event payload shapes) -/

structure Collection where
  title : Option String
deriving DecidableEq

structure Product where
  id : String
  title : Option String
  vendor : Option String
  type : Option String
  collections : Option (List Collection)
deriving DecidableEq

/-- A monetary value whose `amount` string is always present
(`parseFloat(x.amount)` is applied unguarded by the code). -/
structure MoneyReq where
  amount : ℚ
deriving DecidableEq

/-- A monetary value whose `amount` string may be absent or empty
(the code guards it with truthiness / `|| 0`). -/
structure MoneyOpt where
  amount : Option ℚ
deriving DecidableEq

/-- A product variant.  `vendor`, `type` and `collections` are not part of
the Shopify variant payload (they are `undefined` in JS); they are kept as
optional fields because `formatItem` reads them off the variant object when
the `product` back-reference is missing. -/
structure Variant where
  id : String
  title : Option String
  sku : Option String
  price : MoneyReq
  product : Option Product
  vendor : Option String
  type : Option String
  collections : Option (List Collection)
deriving DecidableEq

structure DiscountApplication where
  title : Option String
deriving DecidableEq

structure DiscountAllocation where
  amount : Option MoneyOpt
  discountApplication : Option DiscountApplication
deriving DecidableEq

/-- A cart line / checkout line item.  Carts name the variant
`merchandise`, checkouts name it `variant`; the code reads
`lineItem.merchandise || lineItem.variant`. -/
structure LineItem where
  merchandise : Option Variant
  variant : Option Variant
  quantity : ℚ
  discountAllocations : Option (List DiscountAllocation)
deriving DecidableEq

/-! ### Canonical output item -/

/-- The GA4 item record built by `formatItem`.  `none` in an `Option`
field means the key is not present on the JS object. -/
structure CanonicalItem where
  item_id : String
  item_name : Option String
  item_variant : Option String
  item_brand : String
  item_category : String
  item_category2 : Option String
  item_category3 : Option String
  item_category4 : Option String
  item_category5 : Option String
  price : ℚ
  quantity : ℚ
  discount : Option ℚ
  coupon : Option String
deriving DecidableEq

/-! ### cleanProductName -/

/-- `cleanProductName(productTitle, variantTitle)` from src/index.js:
returns `productTitle` unchanged when either argument is falsy, strips the
trailing `" - " + variantTitle` when present, otherwise returns the title
unchanged. -/
def cleanProductName (productTitle variantTitle : Option String) : Option String :=
  if jsTruthyStr variantTitle = false ∨ jsTruthyStr productTitle = false then
    productTitle
  else
    let pt := productTitle.getD ""
    let suf := " - " ++ variantTitle.getD ""
    if jsEndsWith pt suf then some (jsDropRight pt suf.length)
    else some pt

/-! ### createItemId -/

/-- `createItemId(product, variant)` from src/index.js: SKU format when the
SKU is truthy and non-blank, else the Shopify id fallback
`shopify_DE_<product.id>_<variant.id>`. -/
def createItemId (product : Product) (variant : Variant) : String :=
  if jsTruthyStr variant.sku = true ∧ jsTrim (variant.sku.getD "") ≠ "" then
    "SKU_" ++ variant.sku.getD ""
  else
    "shopify_DE_" ++ product.id ++ "_" ++ variant.id

/-! ### formatItem -/

/-- The JS expression `variant.product || variant`: when the back-reference
is absent the variant object itself plays the product role, exposing its own
`id`, `title`, `vendor`, `type` and `collections` properties. -/
def formatItemProduct (variant : Variant) : Product :=
  match variant.product with
  | some p => p
  | none => ⟨variant.id, variant.title, variant.vendor, variant.type, variant.collections⟩

/-- `product.collections?.[i]?.title`. -/
def collectionsTitle (product : Product) (i : Nat) : Option String :=
  (product.collections.bind fun cs => cs[i]?).bind Collection.title

/-- The conditional category: `some t` exactly when
`product.collections?.[i]?.title` is truthy. -/
def categoryAt (product : Product) (i : Nat) : Option String :=
  match collectionsTitle product i with
  | none => none
  | some t => if t = "" then none else some t

/-- `lineItem?.discountAllocations?.[0]`. -/
def firstAllocation (lineItem : Option LineItem) : Option DiscountAllocation :=
  (lineItem.bind LineItem.discountAllocations).bind List.head?

/-- `discountAllocation.amount?.amount`, set as `discount` when truthy. -/
def allocationAmount (da : DiscountAllocation) : Option ℚ :=
  da.amount.bind MoneyOpt.amount

/-- `discountAllocation.discountApplication?.title`, set as `coupon` when
truthy. -/
def allocationCoupon (da : DiscountAllocation) : Option String :=
  match da.discountApplication.bind DiscountApplication.title with
  | none => none
  | some t => if t = "" then none else some t

/-- `formatItem(variant, quantity = 1, lineItem = null)` from src/index.js. -/
def formatItem (variant : Variant) (quantity : ℚ) (lineItem : Option LineItem) :
    CanonicalItem :=
  let product := formatItemProduct variant
  { item_id := createItemId product variant
    item_name := cleanProductName product.title variant.title
    item_variant := variant.title
    item_brand := jsOrStr product.vendor FALLBACK_BRAND
    item_category := jsOrStr product.type ""
    item_category2 := categoryAt product 0
    item_category3 := categoryAt product 1
    item_category4 := categoryAt product 2
    item_category5 := categoryAt product 3
    price := variant.price.amount
    quantity := quantity
    discount := (firstAllocation lineItem).bind allocationAmount
    coupon := (firstAllocation lineItem).bind allocationCoupon }

/-! ### formatItems -/

/-- The JS value handed to `formatItems` / stored in `cart.lines`:
`missing` covers `undefined`/`null`, `nonArray` any other non-array value
(carrying a string so truthiness is observable), `array` a proper array. -/
inductive LinesValue where
  | missing
  | nonArray (raw : String)
  | array (lineItems : List LineItem)
deriving DecidableEq

/-- JS truthiness of the `lines` value (`!cart.lines`): arrays are always
truthy, a plain string is truthy when non-empty. -/
def linesTruthy : LinesValue → Bool
  | .missing => false
  | .nonArray raw => raw ≠ ""
  | .array _ => true

/-- `lineItem.merchandise || lineItem.variant`. -/
def lineVariant (li : LineItem) : Option Variant :=
  match li.merchandise with
  | some v => some v
  | none => li.variant

/-- The `lineItems.map(...)` body of `formatItems`, with `none` modelling
the TypeError thrown when a line has neither `merchandise` nor `variant`. -/
def formatItemsList : List LineItem → Option (List CanonicalItem)
  | [] => some []
  | li :: rest =>
    match lineVariant li with
    | none => none
    | some v =>
      match formatItemsList rest with
      | none => none
      | some items => some (formatItem v li.quantity (some li) :: items)

/-- `formatItems(lineItems)` from src/index.js: `[]` unless the input is a
proper array, else the per-line map. -/
def formatItems : LinesValue → Option (List CanonicalItem)
  | .missing => some []
  | .nonArray _ => some []
  | .array lineItems => formatItemsList lineItems

/-! ### Event handlers -/

/-- Outcome of running one subscribed handler: it either called
`sendEvent` with a payload, returned early without dispatching, or threw. -/
inductive HandlerOutcome (α : Type) where
  | dispatched (payload : α)
  | skipped
  | crashed
deriving DecidableEq

structure Cart where
  lines : LinesValue
deriving DecidableEq

structure CartViewedData where
  cart : Option Cart
deriving DecidableEq

/-- Payload of the `view_cart` event. -/
structure ViewCartPayload where
  currency : String
  value : ℚ
  items : List CanonicalItem
deriving DecidableEq

/-- The `cart_viewed` subscriber from src/index.js. -/
def cartViewedHandler (data : CartViewedData) : HandlerOutcome ViewCartPayload :=
  match data.cart with
  | none => .skipped
  | some cart =>
    if linesTruthy cart.lines = true then
      match formatItems cart.lines with
      | none => .crashed
      | some items =>
        .dispatched
          ⟨CONFIG_CURRENCY,
           items.foldl (fun sum item => sum + item.price * item.quantity) 0,
           items⟩
    else .skipped

/-- A JS order id, which may be a string or a number; the code calls
`order.id.toString()`. -/
inductive OrderId where
  | str (s : String)
  | num (n : Int)
deriving DecidableEq

def orderIdToString : OrderId → String
  | .str s => s
  | .num n => toString n

structure Order where
  id : OrderId
deriving DecidableEq

structure ShippingLine where
  title : Option String
  price : MoneyOpt
deriving DecidableEq

structure Checkout where
  order : Option Order
  currencyCode : Option String
  totalPrice : MoneyReq
  totalTax : Option MoneyOpt
  shippingLine : Option ShippingLine
  lineItems : LinesValue
  discountApplications : Option (List DiscountApplication)
deriving DecidableEq

structure CheckoutCompletedData where
  checkout : Checkout
deriving DecidableEq

/-- Payload of the `purchase` event. -/
structure PurchasePayload where
  transaction_id : String
  currency : String
  value : ℚ
  tax : ℚ
  shipping : ℚ
  items : List CanonicalItem
  coupon : Option String
deriving DecidableEq

/-- `checkout.discountApplications?.[0]?.title`, attached when truthy. -/
def checkoutCoupon (checkout : Checkout) : Option String :=
  match (checkout.discountApplications.bind List.head?).bind DiscountApplication.title with
  | none => none
  | some t => if t = "" then none else some t

/-- The `checkout_completed` subscriber from src/index.js.  `crashed` when
`checkout.order` is absent (`order.id` throws) or a line item lacks a
variant. -/
def checkoutCompletedHandler (data : CheckoutCompletedData) :
    HandlerOutcome PurchasePayload :=
  let checkout := data.checkout
  match formatItems checkout.lineItems with
  | none => .crashed
  | some items =>
    match checkout.order with
    | none => .crashed
    | some order =>
      .dispatched
        ⟨orderIdToString order.id,
         jsOrStr checkout.currencyCode CONFIG_CURRENCY,
         checkout.totalPrice.amount,
         (checkout.totalTax.bind MoneyOpt.amount).getD 0,
         (match checkout.shippingLine with
          | none => 0
          | some sl => sl.price.amount.getD 0),
         items,
         checkoutCoupon checkout⟩

/-! ### Dispatcher (sendEvent) -/

/-- Result of a JS call: it returned normally or threw. -/
inductive JsOutcome where
  | ok
  | exn
deriving DecidableEq

/-- `sendEvent(eventName, params)` from src/index.js, against a sink whose
behaviour is `gtag`.  Returns the outcome that propagates to the caller
(the `try`/`catch` swallows the sink fault) paired with whether the sink
was invoked. -/
def sendEvent {α : Type} (gtagDefined : Bool) (gtag : String → α → JsOutcome)
    (eventName : String) (params : α) : JsOutcome × Bool :=
  if gtagDefined = true then
    match gtag eventName params with
    | .ok => (.ok, true)
    | .exn => (.ok, true)
  else (.ok, false)

/-- A run of successive dispatches: each event is sent with `sendEvent`;
an outcome of `exn` would abort the remaining events.  Returns, per event
actually processed, whether the sink was invoked for it. -/
def runDispatchLoop {α : Type} (gtagDefined : Bool) (gtag : String → α → JsOutcome) :
    List (String × α) → List Bool
  | [] => []
  | (n, p) :: rest =>
    match sendEvent gtagDefined gtag n p with
    | (.ok, called) => called :: runDispatchLoop gtagDefined gtag rest
    | (.exn, called) => [called]

end WebPixel

namespace WebPixel

/-! ### Auxiliary view and concrete inputs used by witnesses -/

/-- The n-th conditional category field of a canonical item:
index 0 is `item_category2`, ..., index 3 is `item_category5`; there is no
category field beyond `item_category5`. -/
def itemCategoryN (item : CanonicalItem) : Nat → Option String
  | 0 => item.item_category2
  | 1 => item.item_category3
  | 2 => item.item_category4
  | 3 => item.item_category5
  | _ + 4 => none

/-- A product whose single collection has an empty title. -/
def cexProduct : Product := ⟨"p1", some "T", none, none, some [⟨some ""⟩]⟩

/-- A variant of `cexProduct`. -/
def cexVariant : Variant := ⟨"v1", some "T", none, ⟨5⟩, some cexProduct, none, none, none⟩

/-- A product with two titled collections. -/
def wProduct : Product :=
  ⟨"p", some "P", some "Vend", some "Ty", some [⟨some "A"⟩, ⟨some "B"⟩]⟩

/-- A variant of `wProduct` with a non-blank SKU. -/
def wVariant : Variant := ⟨"v", some "P", some "AB1", ⟨10⟩, some wProduct, none, none, none⟩

/-- A variant whose SKU is all whitespace. -/
def w2Variant : Variant := ⟨"v2w", none, some " ", ⟨10⟩, none, none, none, none⟩

def w2Product : Product := ⟨"p2w", none, none, none, none⟩

/-- A cart line wrapping `w2Variant` with quantity 2. -/
def w4Line : LineItem := ⟨some w2Variant, none, 2, none⟩

def w5V1 : Variant := ⟨"v1", none, none, ⟨10⟩, none, none, none, none⟩

def w5V2 : Variant := ⟨"v2", none, none, ⟨11 / 2⟩, none, none, none, none⟩

def w5L1 : LineItem := ⟨some w5V1, none, 2, none⟩

def w5L2 : LineItem := ⟨some w5V2, none, 1, none⟩

def w5Cart : Cart := ⟨.array [w5L1, w5L2]⟩

def w5Items : List CanonicalItem :=
  [formatItem w5V1 2 (some w5L1), formatItem w5V2 1 (some w5L2)]

/-- A completed checkout with a numeric order id, no tax and no shipping
line. -/
def w6Checkout : Checkout := ⟨some ⟨.num 12345⟩, none, ⟨100⟩, none, none, .array [], none⟩

/-- A variant with no product back-reference. -/
def w9Variant : Variant := ⟨"v9", some "T9", none, ⟨7⟩, none, some "Vend9", some "Ty9", none⟩

end WebPixel

namespace WebPixel

/-! ### Helper lemmas -/

theorem stringMk_append (t : List Char) (s : String) :
    String.mk t ++ s = String.mk (t ++ s.data) := by
  cases s
  rfl

theorem jsEndsWith_iff (s suf : String) :
    jsEndsWith s suf = true ↔ ∃ t : List Char, t ++ suf.data = s.data := by
  unfold jsEndsWith
  rw [List.isSuffixOf_iff_suffix]
  exact Iff.rfl

theorem jsDropRight_append (t : List Char) (suf : String) :
    jsDropRight (String.mk (t ++ suf.data)) suf.length = String.mk t := by
  unfold jsDropRight
  have hd : (String.mk (t ++ suf.data)).data = t ++ suf.data := rfl
  rw [hd]
  have hl : (t ++ suf.data).length - suf.length = t.length := by
    simp only [List.length_append, String.length]
    omega
  rw [hl, List.take_left]

theorem shopify_ne_sku (a b c : String) :
    "shopify_DE_" ++ a ++ "_" ++ b ≠ "SKU_" ++ c := by
  intro h
  have h2 := congrArg (fun s : String => s.data.head?) h
  simp only [String.data_append, List.head?_append] at h2
  have hl : ("shopify_DE_" : String).data.head? = some 's' := by decide
  have hr : ("SKU_" : String).data.head? = some 'S' := by decide
  rw [hl, hr] at h2
  simp only [Option.or_some] at h2
  exact absurd h2 (by decide)

theorem jsOrStr_empty (o : Option String) : jsOrStr o "" = o.getD "" := by
  cases o with
  | none => rfl
  | some s =>
    unfold jsOrStr
    by_cases hs : s = ""
    · subst hs; simp
    · simp [hs]

theorem categoryAt_eq (p : Product) (i : Nat) :
    categoryAt p i =
      (((p.collections.getD [])[i]?).bind Collection.title).bind
        (fun t => if t = "" then none else some t) := by
  unfold categoryAt collectionsTitle
  cases p.collections with
  | none => rfl
  | some cs =>
    cases h : cs[i]? with
    | none => simp [h]
    | some c =>
      cases ht : c.title with
      | none => simp [h, ht]
      | some t => simp [h, ht]

theorem formatItemsList_spec (ls : List LineItem)
    (h : ∀ li ∈ ls, (lineVariant li).isSome = true) :
    ∃ items : List CanonicalItem,
      formatItemsList ls = some items
      ∧ items.length = ls.length
      ∧ ∀ i : Nat, i < ls.length →
          ∃ li v, ls[i]? = some li ∧ lineVariant li = some v
            ∧ items[i]? = some (formatItem v li.quantity (some li)) := by
  induction ls with
  | nil => exact ⟨[], rfl, rfl, fun i hi => by simp at hi⟩
  | cons li rest ih =>
    obtain ⟨v, hv⟩ := Option.isSome_iff_exists.mp (h li (List.mem_cons_self li rest))
    obtain ⟨items, hitems, hlen, hidx⟩ :=
      ih (fun x hx => h x (List.mem_cons_of_mem _ hx))
    refine ⟨formatItem v li.quantity (some li) :: items, ?_, ?_, ?_⟩
    · unfold formatItemsList
      rw [hv, hitems]
    · simp [hlen]
    · intro i hi
      cases i with
      | zero => exact ⟨li, v, by simp, hv, by simp⟩
      | succ n =>
        have hn : n < rest.length := by
          simp only [List.length_cons] at hi
          omega
        obtain ⟨li2, v2, h1, h2, h3⟩ := hidx n hn
        exact ⟨li2, v2, by simpa using h1, h2, by simpa using h3⟩

theorem foldl_value_eq_sum (items : List CanonicalItem) (a : ℚ) :
    items.foldl (fun sum item => sum + item.price * item.quantity) a
      = a + (items.map fun item => item.price * item.quantity).sum := by
  induction items generalizing a with
  | nil => simp
  | cons x xs ih =>
    simp only [List.foldl_cons, List.map_cons, List.sum_cons]
    rw [ih]
    ring

theorem allocationCoupon_eq_some (da : DiscountAllocation) (c : String) :
    allocationCoupon da = some c ↔
      ∃ app, da.discountApplication = some app ∧ app.title = some c ∧ c ≠ "" := by
  unfold allocationCoupon
  cases h : da.discountApplication.bind DiscountApplication.title with
  | none =>
    simp only [Option.bind_eq_none] at h
    constructor
    · intro h2
      cases h2
    · rintro ⟨app, happ, ht, hc⟩
      have h2 := h app happ
      simp [h2] at ht
  | some t =>
    rw [Option.bind_eq_some] at h
    obtain ⟨app, happ, ht⟩ := h
    show (if t = "" then none else some t) = some c ↔ _
    by_cases htt : t = ""
    · subst htt
      simp only [if_pos rfl]
      constructor
      · intro h2
        cases h2
      · rintro ⟨app2, happ2, ht2, hc⟩
        rw [happ] at happ2
        cases happ2
        rw [ht] at ht2
        cases ht2
        exact absurd rfl hc
    · rw [if_neg htt]
      constructor
      · intro h2
        cases h2
        exact ⟨app, happ, ht, htt⟩
      · rintro ⟨app2, happ2, ht2, hc⟩
        rw [happ] at happ2
        cases happ2
        rw [ht] at ht2
        cases ht2
        rfl

theorem cleanProductName_self (t : Option String) : cleanProductName t t = t := by
  cases t with
  | none => rfl
  | some s =>
    by_cases hs : s = ""
    · subst hs; rfl
    · unfold cleanProductName
      have h1 : jsTruthyStr (some s) = true := by simp [jsTruthyStr, hs]
      rw [h1]
      have hend : jsEndsWith s (" - " ++ s) = false := by
        by_contra hcon
        rw [Bool.not_eq_false] at hcon
        obtain ⟨t0, ht0⟩ := (jsEndsWith_iff _ _).mp hcon
        have hlen := congrArg List.length ht0
        rw [List.length_append] at hlen
        have h5 : (" - " ++ s).data.length = 3 + s.data.length := by
          rw [String.data_append, List.length_append]
          have h3 : (" - ").data.length = 3 := by decide
          omega
        omega
      simp only [Bool.true_eq_false, or_self, if_false, Option.getD_some]
      rw [hend]
      simp

theorem createItemId_fallback (p : Product) (v : Variant)
    (h : jsTrim (v.sku.getD "") = "") :
    createItemId p v = "shopify_DE_" ++ p.id ++ "_" ++ v.id := by
  unfold createItemId
  rw [if_neg]
  intro hcond
  exact hcond.2 h

end WebPixel

namespace WebPixel

/-! ### Claim theorems -/

/-- Claim C1 (amended): for every variant, quantity and line-item context,
`item_category` is always a string equal to the product's `type` (empty
string when absent), and for each index `i < 4` the field
`item_category(i+2)` is present exactly when the i-th collection exists and
carries a truthy (present and non-empty) title, populated with that title
in order; no category field is ever emitted beyond the fourth collection. -/
theorem c1_dynamic_categories (v : Variant) (q : ℚ) (li : Option LineItem) (i : Nat) :
    (formatItem v q li).item_category = (formatItemProduct v).type.getD ""
    ∧ (i < 4 →
        itemCategoryN (formatItem v q li) i =
          ((((formatItemProduct v).collections.getD [])[i]?).bind Collection.title).bind
            (fun t => if t = "" then none else some t))
    ∧ (4 ≤ i → itemCategoryN (formatItem v q li) i = none) := by
  refine ⟨?_, ?_, ?_⟩
  · show jsOrStr (formatItemProduct v).type "" = (formatItemProduct v).type.getD ""
    exact jsOrStr_empty _
  · intro hi
    interval_cases i
    · exact categoryAt_eq (formatItemProduct v) 0
    · exact categoryAt_eq (formatItemProduct v) 1
    · exact categoryAt_eq (formatItemProduct v) 2
    · exact categoryAt_eq (formatItemProduct v) 3
  · intro hi
    rcases i with _ | _ | _ | _ | n
    · exact absurd hi (by decide)
    · exact absurd hi (by decide)
    · exact absurd hi (by decide)
    · exact absurd hi (by decide)
    · rfl

/-- Claim C1, counterexample to the claim as stated: `cexProduct` has a
collections list of length 1, so the claim requires `item_category2` to be
present, yet the formatter omits it because the collection's title is the
empty string. -/
theorem c1_dynamic_categories_counterexample :
    (cexProduct.collections.getD []).length = 1
    ∧ (formatItem cexVariant 1 none).item_category2 = none := by
  constructor
  · decide
  · decide

/-- Claim C1, witness: the amended rule applied at a concrete variant with
two titled collections and index 1. -/
theorem c1_dynamic_categories_witness :
    1 < 4
    ∧ itemCategoryN (formatItem wVariant 1 none) 1 =
        ((((formatItemProduct wVariant).collections.getD [])[1]?).bind Collection.title).bind
          (fun t => if t = "" then none else some t) :=
  ⟨by decide, (c1_dynamic_categories wVariant 1 none 1).2.1 (by decide)⟩

/-- Claim C2: the item identity is `SKU_<sku>` exactly when the variant's
SKU is non-empty after trimming whitespace, and otherwise it is the fixed
region fallback `shopify_DE_<product.id>_<variant.id>`. -/
theorem c2_item_identity (p : Product) (v : Variant) :
    (createItemId p v = "SKU_" ++ v.sku.getD "" ↔ jsTrim (v.sku.getD "") ≠ "")
    ∧ (jsTrim (v.sku.getD "") = "" →
        createItemId p v = "shopify_DE_" ++ p.id ++ "_" ++ v.id) := by
  by_cases htrim : jsTrim (v.sku.getD "") = ""
  · have hid : createItemId p v = "shopify_DE_" ++ p.id ++ "_" ++ v.id :=
      createItemId_fallback p v htrim
    refine ⟨?_, fun _ => hid⟩
    rw [hid]
    constructor
    · intro h
      exact absurd h (shopify_ne_sku p.id v.id (v.sku.getD ""))
    · intro h
      exact absurd htrim h
  · have hsku : jsTruthyStr v.sku = true := by
      cases hv : v.sku with
      | none =>
        rw [hv] at htrim
        exact absurd (by decide) htrim
      | some s =>
        by_cases hs : s = ""
        · subst hs
          rw [hv] at htrim
          exact absurd (by decide) htrim
        · simp [jsTruthyStr, hs]
    have hid : createItemId p v = "SKU_" ++ v.sku.getD "" := by
      unfold createItemId
      rw [if_pos ⟨hsku, htrim⟩]
    exact ⟨⟨fun _ => htrim, fun _ => hid⟩, fun h => absurd h htrim⟩

/-- Claim C2, witness: a whitespace-only SKU trims to empty, so the id of
`w2Variant` falls back to the Shopify id format. -/
theorem c2_item_identity_witness :
    jsTrim (w2Variant.sku.getD "") = ""
    ∧ createItemId w2Product w2Variant = "shopify_DE_p2w_v2w" :=
  ⟨by decide, (c2_item_identity w2Product w2Variant).2 (by decide)⟩

/-- Claim C3 (amended): for every product title and every non-empty variant
title, name cleaning strips the literal trailing suffix
`" - " + variantTitle` exactly once when the product title ends with it and
otherwise returns the title unchanged; the three concrete examples of the
claim hold.  (For an empty variant title the code returns the title
unchanged even when it ends with `" - "`.) -/
theorem c3_clean_name (pt vt : String) (hvt : vt ≠ "") :
    (jsEndsWith pt (" - " ++ vt) = true →
       ∃ stem : String, pt = stem ++ (" - " ++ vt)
         ∧ cleanProductName (some pt) (some vt) = some stem)
    ∧ (jsEndsWith pt (" - " ++ vt) = false →
       cleanProductName (some pt) (some vt) = some pt)
    ∧ cleanProductName (some "Shirt - Large") (some "Large") = some "Shirt"
    ∧ cleanProductName (some "Shirt") (some "Large") = some "Shirt"
    ∧ cleanProductName (some "Shirt - Large - XL") (some "Large")
        = some "Shirt - Large - XL" := by
  refine ⟨?_, ?_, by decide, by decide, by decide⟩
  · intro hend
    obtain ⟨t, ht⟩ := (jsEndsWith_iff _ _).mp hend
    have hpt : pt = String.mk t ++ (" - " ++ vt) := by
      rw [stringMk_append]
      cases pt with
      | mk d => exact (congrArg String.mk ht).symm
    have hptne : pt ≠ "" := by
      intro h0
      subst h0
      have ht0 : t ++ (" - " ++ vt).data = [] := ht
      have h2 := (List.append_eq_nil.mp ht0).2
      have h3 : (" - " ++ vt).data.length = 0 := by rw [h2]; rfl
      rw [String.data_append, List.length_append] at h3
      have h4 : (" - ").data.length = 3 := by decide
      omega
    refine ⟨String.mk t, hpt, ?_⟩
    unfold cleanProductName
    have h1 : jsTruthyStr (some vt) = true := by
      simp [jsTruthyStr, hvt]
    have h2 : jsTruthyStr (some pt) = true := by
      simp [jsTruthyStr, hptne]
    rw [h1, h2]
    simp only [Bool.true_eq_false, or_self, if_false]
    have hgd : (some pt).getD "" = pt := rfl
    have hgv : (some vt).getD "" = vt := rfl
    rw [hgd, hgv, hend]
    simp only [if_true]
    congr 1
    conv_lhs => rw [hpt, stringMk_append]
    exact jsDropRight_append t (" - " ++ vt)
  · intro hend
    unfold cleanProductName
    by_cases hptne : pt = ""
    · subst hptne
      simp [jsTruthyStr]
    · have h1 : jsTruthyStr (some vt) = true := by simp [jsTruthyStr, hvt]
      have h2 : jsTruthyStr (some pt) = true := by simp [jsTruthyStr, hptne]
      rw [h1, h2]
      simp only [Bool.true_eq_false, or_self, if_false]
      have hgd : (some pt).getD "" = pt := rfl
      have hgv : (some vt).getD "" = vt := rfl
      rw [hgd, hgv, hend]
      simp

/-- Claim C3, counterexample to the claim as stated: with the empty variant
title, the title `"A - "` ends with the literal suffix `" - " + ""` (whose
stripping would give `"A"`), yet the function returns the title unchanged. -/
theorem c3_clean_name_counterexample :
    jsEndsWith "A - " (" - " ++ "") = true
    ∧ jsDropRight "A - " (" - " ++ "").length = "A"
    ∧ cleanProductName (some "A - ") (some "") = some "A - " := by
  refine ⟨by decide, by decide, by decide⟩

/-- Claim C3, witness: the amended rule applied at
`("Shirt - Large", "Large")`. -/
theorem c3_clean_name_witness :
    ("Large" : String) ≠ ""
    ∧ cleanProductName (some "Shirt - Large") (some "Large") = some "Shirt" :=
  ⟨by decide, (c3_clean_name "Shirt - Large" "Large" (by decide)).2.2.1⟩

/-- Claim C4: `formatItems` returns the empty list (without failing) when
the input is missing or not a proper array; on a proper array of line items
(each wrapping a variant) it returns a list of equal length, in order, whose
i-th element is `formatItem` applied to the i-th line's variant, with the
line's quantity and the line item itself as context. -/
theorem c4_format_items (raw : String) (ls : List LineItem)
    (h : ∀ li ∈ ls, (lineVariant li).isSome = true) :
    formatItems .missing = some []
    ∧ formatItems (.nonArray raw) = some []
    ∧ ∃ items : List CanonicalItem,
        formatItems (.array ls) = some items
        ∧ items.length = ls.length
        ∧ ∀ i : Nat, i < ls.length →
            ∃ li v, ls[i]? = some li ∧ lineVariant li = some v
              ∧ items[i]? = some (formatItem v li.quantity (some li)) :=
  ⟨rfl, rfl, formatItemsList_spec ls h⟩

/-- Claim C4, witness: the contract applied to a one-line array and to the
string input of the spec's example. -/
theorem c4_format_items_witness :
    (∀ li ∈ [w4Line], (lineVariant li).isSome = true)
    ∧ ∃ items : List CanonicalItem,
        formatItems (.array [w4Line]) = some items
        ∧ items.length = [w4Line].length
        ∧ ∀ i : Nat, i < [w4Line].length →
            ∃ li v, [w4Line][i]? = some li ∧ lineVariant li = some v
              ∧ items[i]? = some (formatItem v li.quantity (some li)) :=
  ⟨by decide, (c4_format_items "not-an-array" [w4Line] (by decide)).2.2⟩

/-- Claim C5: for a cart-viewed event whose cart lines form a proper array
that formats successfully, the dispatched value equals the sum over the
formatted items of price times quantity. -/
theorem c5_cart_viewed_value (cart : Cart) (ls : List LineItem)
    (items : List CanonicalItem)
    (hlines : cart.lines = .array ls)
    (hitems : formatItems cart.lines = some items) :
    cartViewedHandler ⟨some cart⟩ =
      .dispatched ⟨CONFIG_CURRENCY,
        (items.map fun item => item.price * item.quantity).sum, items⟩ := by
  have hstep : cartViewedHandler ⟨some cart⟩ =
      (if linesTruthy cart.lines = true then
        match formatItems cart.lines with
        | none => .crashed
        | some items =>
          .dispatched ⟨CONFIG_CURRENCY,
            items.foldl (fun sum item => sum + item.price * item.quantity) 0, items⟩
      else .skipped) := rfl
  rw [hstep]
  rw [hlines] at hitems ⊢
  rw [hitems]
  simp only [linesTruthy, if_pos]
  exact congrArg
    (fun z => HandlerOutcome.dispatched (ViewCartPayload.mk CONFIG_CURRENCY z items))
    (by rw [foldl_value_eq_sum items 0, zero_add])

/-- Claim C5, witness: the cart with lines priced 10.00 times 2 and 5.50
times 1 dispatches value 25.50. -/
theorem c5_cart_viewed_value_witness :
    w5Cart.lines = .array [w5L1, w5L2]
    ∧ formatItems w5Cart.lines = some w5Items
    ∧ cartViewedHandler ⟨some w5Cart⟩ =
        .dispatched ⟨CONFIG_CURRENCY,
          (w5Items.map fun item => item.price * item.quantity).sum, w5Items⟩
    ∧ (w5Items.map fun item => item.price * item.quantity).sum = 51 / 2 :=
  ⟨rfl, rfl, c5_cart_viewed_value w5Cart [w5L1, w5L2] w5Items rfl rfl,
   by norm_num [w5Items, formatItem, w5V1, w5V2]⟩

/-- Claim C6: a completed checkout with an order and well-formed lines
dispatches a payload whose `transaction_id` is the stringified order id
(a string even for a numeric id), and whose `tax` and `shipping` are 0
whenever the corresponding source amounts are absent. -/
theorem c6_checkout_completed_payload (checkout : Checkout) (order : Order)
    (items : List CanonicalItem)
    (ho : checkout.order = some order)
    (hi : formatItems checkout.lineItems = some items) :
    ∃ payload : PurchasePayload,
      checkoutCompletedHandler ⟨checkout⟩ = .dispatched payload
      ∧ payload.transaction_id = orderIdToString order.id
      ∧ (∀ n : Int, order.id = .num n → payload.transaction_id = toString n)
      ∧ (checkout.totalTax.bind MoneyOpt.amount = none → payload.tax = 0)
      ∧ ((checkout.shippingLine.bind fun sl => sl.price.amount) = none →
          payload.shipping = 0)
      ∧ payload.items = items := by
  refine ⟨⟨orderIdToString order.id, jsOrStr checkout.currencyCode CONFIG_CURRENCY,
    checkout.totalPrice.amount, (checkout.totalTax.bind MoneyOpt.amount).getD 0,
    (match checkout.shippingLine with
     | none => 0
     | some sl => sl.price.amount.getD 0),
    items, checkoutCoupon checkout⟩, ?_, rfl, ?_, ?_, ?_, rfl⟩
  · have hstep : checkoutCompletedHandler ⟨checkout⟩ =
        (match formatItems checkout.lineItems with
         | none => .crashed
         | some items =>
           match checkout.order with
           | none => .crashed
           | some order =>
             .dispatched ⟨orderIdToString order.id,
               jsOrStr checkout.currencyCode CONFIG_CURRENCY,
               checkout.totalPrice.amount,
               (checkout.totalTax.bind MoneyOpt.amount).getD 0,
               (match checkout.shippingLine with
                | none => 0
                | some sl => sl.price.amount.getD 0),
               items, checkoutCoupon checkout⟩) := rfl
    rw [hstep, hi, ho]
  · intro n hn
    rw [hn]
    rfl
  · intro h
    simp [h]
  · intro h
    cases hsl : checkout.shippingLine with
    | none => simp
    | some sl =>
      rw [hsl] at h
      simp only [Option.some_bind] at h
      simp [h]

/-- Claim C6, witness: a checkout with numeric order id 12345, no total-tax
field and no shipping line. -/
theorem c6_checkout_completed_payload_witness :
    w6Checkout.order = some ⟨.num 12345⟩
    ∧ formatItems w6Checkout.lineItems = some []
    ∧ ∃ payload : PurchasePayload,
        checkoutCompletedHandler ⟨w6Checkout⟩ = .dispatched payload
        ∧ payload.transaction_id = orderIdToString (OrderId.num 12345)
        ∧ (∀ n : Int, (Order.mk (OrderId.num 12345)).id = .num n →
            payload.transaction_id = toString n)
        ∧ (w6Checkout.totalTax.bind MoneyOpt.amount = none → payload.tax = 0)
        ∧ ((w6Checkout.shippingLine.bind fun sl => sl.price.amount) = none →
            payload.shipping = 0)
        ∧ payload.items = [] :=
  ⟨rfl, rfl, c6_checkout_completed_payload w6Checkout ⟨.num 12345⟩ [] rfl rfl⟩

/-- Claim C7: for every sink behaviour, event name and payload, `sendEvent`
always invokes the sink and always returns normally (the `try`/`catch`
swallows any sink fault), so in a run of successive dispatches every event
reaches the sink regardless of faults on earlier events. -/
theorem c7_dispatch_isolation {α : Type} (gtag : String → α → JsOutcome)
    (eventName : String) (params : α) (events : List (String × α)) :
    sendEvent true gtag eventName params = (.ok, true)
    ∧ runDispatchLoop true gtag events = events.map fun _ => true := by
  constructor
  · unfold sendEvent
    cases gtag eventName params <;> simp
  · induction events with
    | nil => rfl
    | cons e rest ih =>
      obtain ⟨n, p⟩ := e
      have hs : sendEvent true gtag n p = (.ok, true) := by
        unfold sendEvent
        cases gtag n p <;> simp
      unfold runDispatchLoop
      rw [hs]
      simp [ih]

/-- Claim C8: the `discount` field is set (to the parsed amount) exactly
when the first discount allocation of the supplied line item has a present
amount, the `coupon` field exactly when that first allocation has a truthy
discount-application title; both depend only on the first allocation, are
independent, and neither is set without a line item. -/
theorem c8_discount_enrichment (v : Variant) (q : ℚ) (li : Option LineItem) :
    (∀ d : ℚ, (formatItem v q li).discount = some d ↔
      ∃ l allocs da m, li = some l ∧ l.discountAllocations = some allocs
        ∧ allocs.head? = some da ∧ da.amount = some m ∧ m.amount = some d)
    ∧ (∀ c : String, (formatItem v q li).coupon = some c ↔
      ∃ l allocs da app, li = some l ∧ l.discountAllocations = some allocs
        ∧ allocs.head? = some da ∧ da.discountApplication = some app
        ∧ app.title = some c ∧ c ≠ "")
    ∧ (li = none →
        (formatItem v q li).discount = none ∧ (formatItem v q li).coupon = none) := by
  refine ⟨?_, ?_, ?_⟩
  · intro d
    show (firstAllocation li).bind allocationAmount = some d ↔ _
    simp only [firstAllocation, allocationAmount, Option.bind_eq_some]
    constructor
    · rintro ⟨da, ⟨allocs, ⟨l, hl, hda⟩, hh⟩, m, hm, hmd⟩
      exact ⟨l, allocs, da, m, hl, hda, hh, hm, hmd⟩
    · rintro ⟨l, allocs, da, m, hl, hda, hh, hm, hmd⟩
      exact ⟨da, ⟨allocs, ⟨l, hl, hda⟩, hh⟩, m, hm, hmd⟩
  · intro c
    show (firstAllocation li).bind allocationCoupon = some c ↔ _
    simp only [firstAllocation, Option.bind_eq_some, allocationCoupon_eq_some]
    constructor
    · rintro ⟨da, ⟨allocs, ⟨l, hl, hda⟩, hh⟩, app, happ, ht, hc⟩
      exact ⟨l, allocs, da, app, hl, hda, hh, happ, ht, hc⟩
    · rintro ⟨l, allocs, da, app, hl, hda, hh, happ, ht, hc⟩
      exact ⟨da, ⟨allocs, ⟨l, hl, hda⟩, hh⟩, app, happ, ht, hc⟩
  · intro h
    subst h
    exact ⟨rfl, rfl⟩

/-- Claim C8, witness: with no line-item context neither `discount` nor
`coupon` is set. -/
theorem c8_discount_enrichment_witness :
    (formatItem wVariant 1 none).discount = none
    ∧ (formatItem wVariant 1 none).coupon = none :=
  (c8_discount_enrichment wVariant 1 none).2.2 rfl

/-- Claim C9: when a variant has no product back-reference, the variant
itself plays the product role: the identity fallback is
`shopify_DE_<variant.id>_<variant.id>`, and `item_name`, `item_brand` and
`item_category` are read from the variant's own `title`, `vendor` and
`type` fields. -/
theorem c9_variant_fallback (v : Variant) (q : ℚ) (li : Option LineItem)
    (hp : v.product = none) :
    (jsTrim (v.sku.getD "") = "" →
       (formatItem v q li).item_id = "shopify_DE_" ++ v.id ++ "_" ++ v.id)
    ∧ (formatItem v q li).item_name = v.title
    ∧ (formatItem v q li).item_brand = jsOrStr v.vendor FALLBACK_BRAND
    ∧ (formatItem v q li).item_category = jsOrStr v.type "" := by
  have hfp : formatItemProduct v =
      ⟨v.id, v.title, v.vendor, v.type, v.collections⟩ := by
    unfold formatItemProduct
    rw [hp]
  refine ⟨?_, ?_, ?_, ?_⟩
  · intro htrim
    show createItemId (formatItemProduct v) v = _
    rw [hfp, createItemId_fallback _ v htrim]
  · show cleanProductName (formatItemProduct v).title v.title = v.title
    rw [hfp]
    exact cleanProductName_self v.title
  · show jsOrStr (formatItemProduct v).vendor FALLBACK_BRAND = _
    rw [hfp]
  · show jsOrStr (formatItemProduct v).type "" = _
    rw [hfp]

/-- Claim C9, witness: a variant without product back-reference, at which
all four conclusions evaluate. -/
theorem c9_variant_fallback_witness :
    w9Variant.product = none
    ∧ ((jsTrim (w9Variant.sku.getD "") = "" →
         (formatItem w9Variant 1 none).item_id
           = "shopify_DE_" ++ w9Variant.id ++ "_" ++ w9Variant.id)
       ∧ (formatItem w9Variant 1 none).item_name = w9Variant.title
       ∧ (formatItem w9Variant 1 none).item_brand = jsOrStr w9Variant.vendor FALLBACK_BRAND
       ∧ (formatItem w9Variant 1 none).item_category = jsOrStr w9Variant.type "") :=
  ⟨rfl, c9_variant_fallback w9Variant 1 none rfl⟩

/-- Claim C10: a cart-viewed event with no cart, or whose cart has no
`lines` field, dispatches nothing: the handler returns before calling the
sink. -/
theorem c10_cart_viewed_skip (data : CartViewedData) :
    (data.cart = none → cartViewedHandler data = .skipped)
    ∧ (∀ cart : Cart, data.cart = some cart → cart.lines = .missing →
        cartViewedHandler data = .skipped) := by
  constructor
  · intro h
    unfold cartViewedHandler
    rw [h]
  · intro cart hc hl
    have hstep : cartViewedHandler data =
        (match data.cart with
         | none => HandlerOutcome.skipped
         | some cart =>
           if linesTruthy cart.lines = true then
             match formatItems cart.lines with
             | none => HandlerOutcome.crashed
             | some items =>
               HandlerOutcome.dispatched
                 ⟨CONFIG_CURRENCY,
                  items.foldl (fun sum item => sum + item.price * item.quantity) 0,
                  items⟩
           else HandlerOutcome.skipped) := rfl
    rw [hstep, hc]
    show (if linesTruthy cart.lines = true then
        match formatItems cart.lines with
        | none => HandlerOutcome.crashed
        | some items =>
          HandlerOutcome.dispatched
            (ViewCartPayload.mk CONFIG_CURRENCY
              (items.foldl (fun sum item => sum + item.price * item.quantity) 0)
              items)
      else HandlerOutcome.skipped) = HandlerOutcome.skipped
    rw [hl]
    rfl

/-- Claim C10, witness: the handler at a missing cart. -/
theorem c10_cart_viewed_skip_witness :
    (CartViewedData.mk none).cart = none
    ∧ cartViewedHandler ⟨none⟩ = .skipped :=
  ⟨rfl, (c10_cart_viewed_skip ⟨none⟩).1 rfl⟩

end WebPixel
